import Mathlib

/-!
Shallow embedding of the pihole-monitoring repository's core logic:
`log_parser.py` (domain categorization and the log-aggregation pipeline) and
`domain_updater.py` (list download with retry, per-category update, run
metadata).  External effects are passed in explicitly: the query-log store is
a value of an inductive state type, a network fetch is a function from URL
(or attempt index) to an `Except`-valued outcome, and the file-write effect
of a category update is modelled as a list of primitive write operations
applied to a file state.
-/

/-! ## String helpers shared by both modules -/

/-- Models Python `str.lower()` character-wise (ASCII case folding, which is
all the repository's domain data exercises). -/
def pyLower (s : String) : String := String.mk (s.data.map Char.toLower)

/-- Models Python `str.strip()`: leading and trailing whitespace removed
(structurally, over the character list, so that it evaluates in the
kernel). -/
def pyStrip (s : String) : String :=
  String.mk (((s.data.dropWhile Char.isWhitespace).reverse.dropWhile
    Char.isWhitespace).reverse)

/-- Models Python `str.startswith`. -/
def pyStartsWith (s pre : String) : Bool := List.isPrefixOf pre.data s.data

/-- Models Python `str.endswith`. -/
def pyEndsWith (s suffix : String) : Bool := List.isSuffixOf suffix.data s.data

/-- Split a character list at every separator the predicate accepts; pieces
may be empty. -/
def splitAtPred (p : Char → Bool) : List Char → List (List Char)
  | [] => [[]]
  | x :: xs =>
    let r := splitAtPred p xs
    if p x then [] :: r
    else
      match r with
      | [] => [[x]]
      | y :: ys => (x :: y) :: ys

/-- Models Python `str.splitlines()` for newline-separated text (the list
formats the updater consumes); a trailing empty piece produced by a final
newline is skipped by every consumer as a blank line, as in the source. -/
def pySplitLines (s : String) : List String :=
  (splitAtPred (fun c => c == '\n') s.data).map String.mk

/-- Models parameterless Python `str.split()`: split on whitespace runs,
with no empty tokens. -/
def pySplit (s : String) : List String :=
  ((splitAtPred Char.isWhitespace s.data).filter (fun t => !t.isEmpty)).map String.mk

/-- Python's string `<=`: code-point lexicographic comparison. -/
def charListLe : List Char → List Char → Bool
  | [], _ => true
  | _ :: _, [] => false
  | a :: as, b :: bs => if a = b then charListLe as bs else decide (a < b)

/-- Python string comparison, lifted to `String`. -/
def pyStrLe (a b : String) : Bool := charListLe a.data b.data

/-- Python `sorted()` over a set of strings: code-point lexicographic order
(insertion sort keeps the embedding executable and proof-friendly). -/
def pySorted (l : List String) : List String :=
  List.insertionSort (fun a b => pyStrLe a b = true) l

/-- The text written by a loop of `f.write` calls appending one newline per
element (domain_updater.py lines 98-99). -/
def unlines (ls : List String) : String :=
  String.join (ls.map (fun l => l ++ "\n"))

/-! ## log_parser.py: domain categorization -/

/-- The canonical form `categorize_domain` gives its input on log_parser.py
line 75: `domain.lower().strip()`. -/
def canonDomain (domain : String) : String := pyStrip (pyLower domain)

/-- One category test of `categorize_domain` (log_parser.py lines 77-85): the
exact-membership check `if domain in domains` followed by the subdomain scan
`if domain.endswith(f".{cat_domain}") or domain == cat_domain`; both checks
return the same category, so the per-category test is their disjunction. -/
def categoryHit (d : String) (doms : List String) : Bool :=
  doms.contains d || doms.any (fun cd => pyEndsWith d ("." ++ cd) || d == cd)

/-- The loop of `categorize_domain` over the ordered category list; the first
category whose test fires is returned, otherwise "uncategorized"
(log_parser.py line 87). -/
def categorize_go (d : String) : List (String × List String) → String
  | [] => "uncategorized"
  | (cat, doms) :: rest => if categoryHit d doms then cat else categorize_go d rest

/-- log_parser.py `LogParser.categorize_domain` (lines 73-87), over the loaded
categories as an explicit ordered association list (iteration order is a real
behavioural dependency, per the design notes). -/
def categorize_domain (cats : List (String × List String)) (domain : String) : String :=
  categorize_go (canonDomain domain) cats

/-- Propositional form of one category's match test: the (canonicalized)
input is a member of the set, or equals some member, or is a suffix
extension "." ++ member. -/
def catMatches (d : String) (doms : List String) : Prop :=
  d ∈ doms ∨ ∃ cd ∈ doms, d = cd ∨ pyEndsWith d ("." ++ cd) = true

/-! ## log_parser.py: query records, store access, classification -/

/-- One row of the `queries` table as `parse_logs` selects it
(log_parser.py lines 118-123): client, domain, timestamp, status. -/
structure QueryRecord where
  client : String
  domain : String
  timestamp : Int
  status : Int
deriving DecidableEq

/-- State of the Pi-hole query-log store as `check_db_connection`
distinguishes it (log_parser.py lines 89-107): the database file is missing,
the file exists but has no `queries` table, or the table is readable with
the given rows. -/
inductive DbState
  | missing
  | noQueriesTable
  | tables (rows : List QueryRecord)
deriving DecidableEq

/-- log_parser.py `check_db_connection` (lines 89-107): false when the file
is missing or the `queries` table is absent. -/
def check_db_connection : DbState → Bool
  | DbState.missing => false
  | DbState.noQueriesTable => false
  | DbState.tables _ => true

/-- Device attribution (log_parser.py line 135):
`df['client'].map(self.device_map).fillna(df['client'])` — the mapped name,
falling back to the raw client address. -/
def lookupDevice (device_map : List (String × String)) (client : String) : String :=
  match device_map.lookup client with
  | some name => name
  | none => client

/-- The fixed status-description table (log_parser.py lines 141-143). -/
def status_map (s : Int) : Option String :=
  if s = 0 then some "Unknown"
  else if s = 1 then some "Blocked (gravity)"
  else if s = 2 then some "Allowed"
  else if s = 3 then some "Blocked (regex)"
  else if s = 4 then some "Blocked (exact)"
  else if s = 5 then some "Blocked (CNAME)"
  else if s = 9 then some "Blocked (gravity, CNAME)"
  else if s = 10 then some "Blocked (regex, CNAME)"
  else if s = 11 then some "Blocked (exact, CNAME)"
  else none

/-- `df['status'].map(status_map).fillna('Unknown')` (log_parser.py
line 144): unrecognized codes read "Unknown". -/
def statusDescriptionOf (s : Int) : String := (status_map s).getD "Unknown"

/-- A query record enriched by the processing block of `parse_logs`
(log_parser.py lines 133-144) with the resolved device, category and status
description.  (The derived `Hour`/`Date` columns are calendar renderings of
`timestamp` that no aggregate field of the summary reads.) -/
structure ClassifiedRow where
  client : String
  domain : String
  timestamp : Int
  status : Int
  device : String
  category : String
  statusDescription : String
deriving DecidableEq

/-- The per-record enrichment of `parse_logs` (log_parser.py lines 133-144). -/
def classifyRecord (device_map : List (String × String))
    (cats : List (String × List String)) (r : QueryRecord) : ClassifiedRow :=
  { client := r.client
    domain := r.domain
    timestamp := r.timestamp
    status := r.status
    device := lookupDevice device_map r.client
    category := categorize_domain cats r.domain
    statusDescription := statusDescriptionOf r.status }

/-- `ORDER BY timestamp DESC` of the SQL query (log_parser.py line 122). -/
def sortByTimestampDesc (rows : List QueryRecord) : List QueryRecord :=
  List.insertionSort (fun a b => b.timestamp ≤ a.timestamp) rows

/-- Single regex-character test for the fragment of Python `re` that the
device filter exercises: `.` matches any character, anything else matches
itself. -/
def regexCharHit (p c : Char) : Bool := p == '.' || p == c

/-- Match a pattern (list of literal characters and `.` wildcards) against a
prefix of the text. -/
def regexHere : List Char → List Char → Bool
  | [], _ => true
  | _ :: _, [] => false
  | p :: ps, c :: cs => regexCharHit p c && regexHere ps cs

/-- Search the pattern at every position of the text (Python `re.search`). -/
def regexSearch (pat : List Char) : List Char → Bool
  | [] => regexHere pat []
  | s@(_ :: cs) => regexHere pat s || regexSearch pat cs

/-- Models the device-filter test of log_parser.py line 148:
`df['Device'].str.contains(device_filter, case=False, na=False)`.  pandas's
default `regex=True` compiles the filter as a regular expression and
searches it case-insensitively in the device name; embedded here for
patterns built from literal characters and the `.` metacharacter (the
fragment this analysis exercises). -/
def pandasContains (pat s : String) : Bool :=
  regexSearch (pyLower pat).data (pyLower s).data

/-- Literal prefix test over character lists. -/
def charsStartWith : List Char → List Char → Bool
  | [], _ => true
  | _ :: _, [] => false
  | p :: ps, c :: cs => p == c && charsStartWith ps cs

/-- Literal containment of the pattern at some position of the text. -/
def charsContain (pat : List Char) : List Char → Bool
  | [] => charsStartWith pat []
  | s@(_ :: cs) => charsStartWith pat s || charsContain pat cs

/-- Specification-side device-filter predicate, written from the spec's
words ("a case-insensitive substring filter applied to the resolved device
name"): plain case-insensitive substring containment, for comparison with
`pandasContains`. -/
def specCiSubstring (pat s : String) : Bool :=
  charsContain (pyLower pat).data (pyLower s).data

/-- log_parser.py `parse_logs` (lines 109-155) with its collaborators
explicit: the store state, the window start (the source computes it from
the clock as midnight `days` ago; here it is the `start_time` bound of the
SQL query), the device map, the loaded categories, and the optional device
filter.  Returns the processed rows; every failure path of the source
returns an empty frame. -/
def parse_logs (db : DbState) (start_time : Int)
    (device_map : List (String × String)) (cats : List (String × List String))
    (device_filter : Option String) : List ClassifiedRow :=
  if check_db_connection db then
    match db with
    | DbState.tables rows =>
      let sel := sortByTimestampDesc (rows.filter (fun r => start_time ≤ r.timestamp))
      if sel.isEmpty then []
      else
        let processed := sel.map (classifyRecord device_map cats)
        match device_filter with
        | some f =>
          if f = "" then processed
          else processed.filter (fun row => pandasContains f row.device)
        | none => processed
    | _ => []
  else []

/-- The rows of the requested window: what the SQL `WHERE timestamp >= ?`
selects when the store is readable, nothing otherwise. -/
def windowRows (db : DbState) (start_time : Int) : List QueryRecord :=
  match db with
  | DbState.tables rows => rows.filter (fun r => start_time ≤ r.timestamp)
  | _ => []

/-! ## log_parser.py: summary generation -/

/-- Python-set insertion into a duplicate-free list (membership test, keep
first occurrence). -/
def setInsert (s : List String) (x : String) : List String :=
  if s.contains x then s else s ++ [x]

/-- Distinct values of a column in first-occurrence order. -/
def firstDedup (xs : List String) : List String := xs.foldl setInsert []

/-- Occurrences of one value in a column. -/
def countOf (xs : List String) (k : String) : Nat :=
  (xs.filter (fun x => x == k)).length

/-- pandas `value_counts().to_dict()`: each distinct value with its count,
sorted by descending count. -/
def valueCounts (xs : List String) : List (String × Nat) :=
  List.insertionSort (fun a b => b.2 ≤ a.2)
    ((firstDedup xs).map (fun k => (k, countOf xs k)))

/-- Minimum of a column (only read on a non-empty frame). -/
def intListMin : List Int → Int
  | [] => 0
  | t :: ts => ts.foldl min t

/-- Maximum of a column (only read on a non-empty frame). -/
def intListMax : List Int → Int
  | [] => 0
  | t :: ts => ts.foldl max t

/-- The summary dict `generate_summary` builds for a non-empty frame
(log_parser.py lines 162-175).  `date_start`/`date_end` carry the min/max
timestamps whose ISO renderings the source stores under `date_range`. -/
structure Summary where
  total_queries : Nat
  unique_domains : Nat
  unique_devices : Nat
  date_start : Int
  date_end : Int
  top_categories : List (String × Nat)
  top_domains : List (String × Nat)
  device_activity : List (String × Nat)
  blocked_queries : Nat
  blocked_percentage : ℚ
deriving DecidableEq

/-- log_parser.py `generate_summary` (lines 157-177).  An empty frame
returns the empty dict `{}` — a dict with no fields at all — modelled as
`none`; a non-empty frame returns the populated summary.  The percentage is
computed in exact arithmetic (the source's float evaluates the same
rational expression). -/
def generate_summary (rows : List ClassifiedRow) : Option Summary :=
  if rows.isEmpty then none
  else
    let blocked := (rows.filter (fun r => r.status ≠ 2)).length
    some
      { total_queries := rows.length
        unique_domains := (firstDedup (rows.map (fun r => r.domain))).length
        unique_devices := (firstDedup (rows.map (fun r => r.device))).length
        date_start := intListMin (rows.map (fun r => r.timestamp))
        date_end := intListMax (rows.map (fun r => r.timestamp))
        top_categories := (valueCounts (rows.map (fun r => r.category))).take 10
        top_domains := (valueCounts (rows.map (fun r => r.domain))).take 10
        device_activity := valueCounts (rows.map (fun r => r.device))
        blocked_queries := blocked
        blocked_percentage :=
          if 0 < rows.length then (blocked : ℚ) / (rows.length : ℚ) * 100 else 0 }

/-! ## domain_updater.py: list normalization -/

/-- The per-line step of `process_hosts_file` (domain_updater.py lines
56-69): strip; skip blank and comment lines; on a hosts-style line
(`0.0.0.0 domain` or `127.0.0.1 domain`) take the second token unless it is
`localhost`; otherwise take the stripped line verbatim as a bare domain. -/
def hostsLineDomain (rawLine : String) : Option String :=
  let line := pyStrip rawLine
  if line = "" then none
  else if pyStartsWith line "#" then none
  else
    let parts := pySplit line
    if 2 ≤ parts.length ∧ (parts.headD "" = "0.0.0.0" ∨ parts.headD "" = "127.0.0.1") then
      let domain := parts.getD 1 ""
      if domain = "localhost" then none else some domain
    else some line

/-- domain_updater.py `process_hosts_file` (lines 53-71): the deduplicated
set of extracted domains, modelled as a duplicate-free list (the source's
`set` is only ever observed through membership, size and `sorted()`). -/
def process_hosts_file (content : String) : List String :=
  (pySplitLines content).foldl
    (fun acc l =>
      match hostsLineDomain l with
      | some d => setInsert acc d
      | none => acc) []

/-! ## domain_updater.py: download with retry -/

/-- The retry loop of `download_with_retry` (domain_updater.py lines 40-51),
with the network passed in as `get : attempt index → outcome`.  The list
argument is the remainder of Python's `range(retries)` iterator.  Returns
the loop's outcome — `Except.ok (some text)` for a successful return,
`Except.error e` for the re-raised last error, `Except.ok none` for falling
off the loop without running it — together with the number of fetch
attempts performed and the list of back-off waits (in seconds) taken
between attempts. -/
def retryGo (get : Nat → Except String String) (retries : Nat) :
    List Nat → Except String (Option String) × Nat × List Nat
  | [] => (Except.ok none, 0, [])
  | i :: rest =>
    match get i with
    | Except.ok t => (Except.ok (some t), 1, [])
    | Except.error e =>
      if i < retries - 1 then
        let r := retryGo get retries rest
        (r.1, r.2.1 + 1, 2 ^ i :: r.2.2)
      else (Except.error e, 1, [])

/-- domain_updater.py `download_with_retry` (lines 35-51): `retries = None`
defaults to `self.max_retries`; the loop runs over `range(retries)`, which
is empty for a non-positive count. -/
def download_with_retry (get : Nat → Except String String)
    (max_retries : Int) (retries : Option Int) :
    Except String (Option String) × Nat × List Nat :=
  let r := (retries.getD max_retries).toNat
  retryGo get r (List.range r)

/-! ## domain_updater.py: per-category update -/

/-- The URL loop of `download_category` (domain_updater.py lines 78-88) with
the whole fetch-and-raise behaviour of one URL passed in as `fetchRes`
(a raised exception is `Except.error`).  Returns the first successful URL's
normalized domain set; `all_domains` starts empty and the loop breaks at the
first success, so nothing is ever unioned across sources. -/
def fetchFirstSuccess (fetchRes : String → Except String String) :
    List String → Option (String × List String)
  | [] => none
  | url :: rest =>
    match fetchRes url with
    | Except.ok content => some (url, process_hosts_file content)
    | Except.error _ => fetchFirstSuccess fetchRes rest

/-- The URLs `download_category` actually fetches: every failing URL before
the first success, then the successful one; nothing after the `break`. -/
def attemptedUrls (fetchRes : String → Except String String) :
    List String → List String
  | [] => []
  | url :: rest =>
    match fetchRes url with
    | Except.ok _ => [url]
    | Except.error _ => url :: attemptedUrls fetchRes rest

/-- domain_updater.py `download_category` (lines 73-105): the success flag
it returns and the text it writes to `{category}_domains.txt` (`none` when
every URL failed and the file is not touched).  On success the sorted
domains are written one per line. -/
def download_category (fetchRes : String → Except String String)
    (_category : String) (urls : List String) : Bool × Option String :=
  match fetchFirstSuccess fetchRes urls with
  | none => (false, none)
  | some r => (true, some (unlines (pySorted r.2)))

/-! ## domain_updater.py: the file-write effect of a successful update -/

/-- Primitive file operations of the save block of `download_category`
(domain_updater.py lines 96-99): `open(output_file, 'w')` truncates the
file in place, then each sorted domain is written with a trailing
newline. -/
inductive WriteOp
  | openTruncate
  | writeLine (line : String)
deriving DecidableEq

/-- The exact operation sequence the save block performs for a domain set. -/
def categoryWritePlan (doms : List String) : List WriteOp :=
  WriteOp.openTruncate :: (pySorted doms).map WriteOp.writeLine

/-- Effect of one write operation on the file's content (`none` = the file
does not exist). -/
def applyWriteOp (file : Option String) : WriteOp → Option String
  | WriteOp.openTruncate => some ""
  | WriteOp.writeLine l => some (file.getD "" ++ l ++ "\n")

/-- File content after a prefix of the write plan has executed: the state a
reader (or a crash) observes when the write stops after that prefix. -/
def fileAfterOps (init : Option String) (ops : List WriteOp) : Option String :=
  ops.foldl applyWriteOp init

/-! ## domain_updater.py: the full run -/

/-- The metadata record `update_all_lists` persists to
`update_metadata.json` (domain_updater.py lines 118-127). -/
structure UpdateMetadata where
  last_update : String
  results : List (String × Bool)
  total_categories : Nat
  successful_updates : Nat
deriving DecidableEq

/-- domain_updater.py `update_all_lists` (lines 107-138): every category of
`category_sources` is processed independently, the metadata record is
written, and the run reports failure only when no category succeeded
(`sum(results.values())` counts the successes). -/
def update_all_lists (fetchRes : String → Except String String)
    (category_sources : List (String × List String)) (now_iso : String) :
    Bool × UpdateMetadata :=
  let results := category_sources.map
    (fun p => (p.1, (download_category fetchRes p.1 p.2).1))
  let success_count := (results.filter (fun r => r.2)).length
  (if success_count = 0 then false else true,
   { last_update := now_iso
     results := results
     total_categories := category_sources.length
     successful_updates := success_count })

/-! ## Concrete instances used by witnesses and counterexamples -/

/-- A source that fails twice, then succeeds (the spec's retry example). -/
def get3 : Nat → Except String String :=
  fun i => if i < 2 then Except.error "connection timeout" else Except.ok "payload"

/-- A source that fails on every attempt. -/
def getFailAlways : Nat → Except String String :=
  fun _ => Except.error "connection refused"

/-- Two category source URLs: the first always fails, the second serves a
small blocklist. -/
def fetch2 : String → Except String String :=
  fun url =>
    if url = "u2" then Except.ok "0.0.0.0 ads.example.com\ntracker.example"
    else Except.error "connection refused"

/-- A source whose hosts-style payload carries an upper-case domain token
beginning with '#'. -/
def fetchHashUpper : String → Except String String :=
  fun _ => Except.ok "0.0.0.0 #EXAMPLE"

/-- One classified row for the blocked-count example. -/
def c7Row (n : Nat) (status : Int) : ClassifiedRow :=
  { client := "192.168.1.10"
    domain := "d" ++ toString n ++ ".example"
    timestamp := Int.ofNat n
    status := status
    device := "laptop"
    category := "uncategorized"
    statusDescription := statusDescriptionOf status }

/-- Ten records, seven of which have a status other than 2 (one of them
status 0, Unknown). -/
def c7Rows : List ClassifiedRow :=
  [c7Row 0 0, c7Row 1 1, c7Row 2 3, c7Row 3 4, c7Row 4 5, c7Row 5 9,
   c7Row 6 10, c7Row 7 2, c7Row 8 2, c7Row 9 2]

/-! ## Categorization: first-match-wins semantics (C1) -/

theorem categoryHit_iff (d : String) (doms : List String) :
    categoryHit d doms = true ↔ catMatches d doms := by
  simp only [categoryHit, catMatches, Bool.or_eq_true, List.elem_iff,
    List.any_eq_true, beq_iff_eq]
  constructor
  · rintro (h | ⟨cd, hcd, h | h⟩)
    · exact Or.inl h
    · exact Or.inr ⟨cd, hcd, Or.inr h⟩
    · exact Or.inr ⟨cd, hcd, Or.inl h⟩
  · rintro (h | ⟨cd, hcd, h | h⟩)
    · exact Or.inl h
    · exact Or.inr ⟨cd, hcd, Or.inr h⟩
    · exact Or.inr ⟨cd, hcd, Or.inl h⟩

theorem categorize_go_first_match (d : String) (cats : List (String × List String)) :
    ((∀ p ∈ cats, ¬ catMatches d p.2) ∧ categorize_go d cats = "uncategorized") ∨
    (∃ i : Fin cats.length, catMatches d (cats.get i).2 ∧
      (∀ j : Fin cats.length, (j : Nat) < (i : Nat) → ¬ catMatches d (cats.get j).2) ∧
      categorize_go d cats = (cats.get i).1) := by
  induction cats with
  | nil => exact Or.inl ⟨by simp, rfl⟩
  | cons p rest ih =>
    rcases p with ⟨cat, doms⟩
    by_cases h : categoryHit d doms = true
    · refine Or.inr ⟨⟨0, by simp⟩, (categoryHit_iff d doms).mp h, ?_, ?_⟩
      · intro j hj; exact absurd hj (by simp)
      · simp [categorize_go, h]
    · have hnot : ¬ catMatches d doms := fun hc => h ((categoryHit_iff d doms).mpr hc)
      rcases ih with ⟨hall, heq⟩ | ⟨i, hm, hfirst, heq⟩
      · refine Or.inl ⟨?_, ?_⟩
        · rintro q hq
          rcases List.mem_cons.mp hq with rfl | hq
          · exact hnot
          · exact hall q hq
        · simp [categorize_go, h, heq]
      · refine Or.inr ⟨i.succ, ?_, ?_, ?_⟩
        · simpa using hm
        · rintro ⟨jv, hjv⟩ hlt
          cases jv with
          | zero => exact hnot
          | succ k =>
            have hk : k < rest.length := Nat.lt_of_succ_lt_succ hjv
            have : k < (i : Nat) := by simpa using hlt
            exact hfirst ⟨k, hk⟩ this
        · simp [categorize_go, h, heq]

/-- Claim C1: `categorize_domain` lowercases and strips its input, then
scans the categories in load order and returns the first category whose
domain set contains the input, or contains a domain the input equals or
extends by a "." prefix boundary; with no match it returns
"uncategorized". -/
theorem categorize_domain_first_match (cats : List (String × List String)) (domain : String) :
    ((∀ p ∈ cats, ¬ catMatches (canonDomain domain) p.2) ∧
      categorize_domain cats domain = "uncategorized") ∨
    (∃ i : Fin cats.length, catMatches (canonDomain domain) (cats.get i).2 ∧
      (∀ j : Fin cats.length, (j : Nat) < (i : Nat) →
        ¬ catMatches (canonDomain domain) (cats.get j).2) ∧
      categorize_domain cats domain = (cats.get i).1) :=
  categorize_go_first_match (canonDomain domain) cats

/-! ## Empty-window aggregation (C2) -/

/-- Claim C2 (amended): when the store is unavailable or the window holds no
records, the pipeline raises no error and produces the empty summary `{}` —
a dict with no fields at all, not one whose `total_queries` equals 0; the
callers' read `summary.get('total_queries', 0)` then observes 0. -/
theorem parse_logs_empty_summary (db : DbState) (start_time : Int)
    (device_map : List (String × String)) (cats : List (String × List String))
    (device_filter : Option String)
    (h : db = DbState.missing ∨ db = DbState.noQueriesTable ∨
      windowRows db start_time = []) :
    generate_summary (parse_logs db start_time device_map cats device_filter) = none ∧
    ((generate_summary (parse_logs db start_time device_map cats device_filter)).map
        Summary.total_queries).getD 0 = 0 := by
  have hnil : parse_logs db start_time device_map cats device_filter = [] := by
    rcases h with rfl | rfl | hw
    · rfl
    · rfl
    · cases db with
      | missing => rfl
      | noQueriesTable => rfl
      | tables rows =>
        have hf : rows.filter (fun r => start_time ≤ r.timestamp) = [] := hw
        simp [parse_logs, check_db_connection, sortByTimestampDesc, hf]
  rw [hnil]
  exact ⟨rfl, rfl⟩

/-- Witness for C2 at a concrete unavailable store. -/
theorem parse_logs_empty_summary_witness :
    generate_summary (parse_logs DbState.missing 0 [] [] none) = none ∧
    ((generate_summary (parse_logs DbState.missing 0 [] [] none)).map
        Summary.total_queries).getD 0 = 0 :=
  parse_logs_empty_summary DbState.missing 0 [] [] none (Or.inl rfl)

/-- Counterexample to C2 as stated: at an unavailable store the pipeline's
summary is the empty dict, so no summary with a `total_queries` field (of
any value) is produced. -/
theorem c2_total_queries_field_absent :
    ¬ ∃ s, generate_summary (parse_logs DbState.missing 0 [] [] none) = some s ∧
        s.total_queries = 0 := by
  rintro ⟨s, hs, -⟩
  exact Option.noConfusion hs

/-! ## Retry loop (C5, C10) -/

theorem retryGo_segment_fail (get : Nat → Except String String) (err : Nat → String)
    (n : Nat) (h : ∀ j, j < n → get j = Except.error (err j)) :
    ∀ m i, 0 < m → i + m = n →
      retryGo get n (List.range' i m) =
        (Except.error (err (n - 1)), m,
          (List.range' i (m - 1)).map (fun k => (2 : Nat) ^ k)) := by
  intro m
  induction m with
  | zero => intro i h0 _; exact absurd h0 (by omega)
  | succ m ih =>
    intro i _ hin
    rw [List.range'_succ]
    have hi : i < n := by omega
    simp only [retryGo, h i hi]
    cases m with
    | zero =>
      have hx : ¬ i < n - 1 := by omega
      rw [if_neg hx]
      have : i = n - 1 := by omega
      rw [this]
      rfl
    | succ m' =>
      have hx : i < n - 1 := by omega
      rw [if_pos hx]
      rw [ih (i + 1) (by omega) (by omega)]
      have h2 : m' + 1 + 1 - 1 = m' + 1 := rfl
      rw [h2, List.range'_succ]
      rfl

theorem retryGo_segment_success (get : Nat → Except String String) (err : Nat → String)
    (n k : Nat) (t : String) (hk : k < n) (hok : get k = Except.ok t)
    (hfail : ∀ j, j < k → get j = Except.error (err j)) :
    ∀ m i, i ≤ k → k < i + m →
      retryGo get n (List.range' i m) =
        (Except.ok (some t), k + 1 - i,
          (List.range' i (k - i)).map (fun j => (2 : Nat) ^ j)) := by
  intro m
  induction m with
  | zero => intro i hik hkm; exact absurd hkm (by omega)
  | succ m ih =>
    intro i hik hkm
    rw [List.range'_succ]
    by_cases hek : i = k
    · subst hek
      simp only [retryGo, hok]
      have h1 : i + 1 - i = 1 := by omega
      have h2 : i - i = 0 := by omega
      rw [h1, h2]
      rfl
    · have hik' : i < k := lt_of_le_of_ne hik hek
      have hlt : i < n - 1 := by omega
      simp only [retryGo, hfail i hik', if_pos hlt]
      rw [ih (i + 1) (by omega) (by omega)]
      have h1 : k + 1 - (i + 1) + 1 = k + 1 - i := by omega
      have h2 : k - i = (k - (i + 1)) + 1 := by omega
      rw [h1, h2, List.range'_succ]
      rfl

/-- Claim C5: with `maxAttempts = n ≥ 1`, a source failing every attempt is
fetched exactly `n` times and the loop re-raises the last error; a source
failing `k < n` times then succeeding is fetched exactly `k + 1` times and
the text is returned; the wait after (0-indexed) attempt `i` is `2^i`
seconds, and no wait follows the final attempt. -/
theorem download_with_retry_spec (get : Nat → Except String String) (err : Nat → String)
    (n : Nat) (hn : 1 ≤ n) :
    ((∀ j, j < n → get j = Except.error (err j)) →
      download_with_retry get (n : Int) none =
        (Except.error (err (n - 1)), n,
          (List.range (n - 1)).map (fun k => (2 : Nat) ^ k))) ∧
    (∀ k t, k < n → get k = Except.ok t →
      (∀ j, j < k → get j = Except.error (err j)) →
      download_with_retry get (n : Int) none =
        (Except.ok (some t), k + 1, (List.range k).map (fun j => (2 : Nat) ^ j))) := by
  have hcast : ((none : Option Int).getD (n : Int)).toNat = n := by
    simp
  constructor
  · intro hfail
    unfold download_with_retry
    rw [hcast]
    show retryGo get n (List.range n) = _
    rw [List.range_eq_range',
      retryGo_segment_fail get err n hfail n 0 (by omega) (by omega),
      ← List.range_eq_range']
  · intro k t hk hok hfail
    unfold download_with_retry
    rw [hcast]
    show retryGo get n (List.range n) = _
    rw [List.range_eq_range',
      retryGo_segment_success get err n k t hk hok hfail n 0 (by omega) (by omega)]
    have h1 : k + 1 - 0 = k + 1 := rfl
    have h2 : k - 0 = k := rfl
    rw [h1, h2, ← List.range_eq_range']

/-- Witness for C5: the spec's `maxAttempts = 3` example — two failures then
a success makes exactly 3 attempts, returns the text, and waits 1s then 2s. -/
theorem download_with_retry_spec_witness :
    download_with_retry get3 (3 : Int) none = (Except.ok (some "payload"), 3, [1, 2]) := by
  have h := (download_with_retry_spec get3 (fun _ => "connection timeout") 3
      (by omega)).2 2 "payload" (by omega) rfl ?_
  · exact h.trans rfl
  · intro j hj
    interval_cases j <;> rfl

/-- Claim C10: `retries = 0` (or any non-positive value) makes the attempt
loop empty — no fetch, no error, and the function returns `None`. -/
theorem download_with_retry_nonpositive (get : Nat → Except String String)
    (max_retries r : Int) (hr : r ≤ 0) :
    download_with_retry get max_retries (some r) = (Except.ok none, 0, []) := by
  unfold download_with_retry
  simp [Int.toNat_of_nonpos hr, retryGo]

/-- Witness for C10 at `retries = 0` against an always-failing source. -/
theorem download_with_retry_nonpositive_witness :
    download_with_retry getFailAlways 3 (some 0) = (Except.ok none, 0, []) :=
  download_with_retry_nonpositive getFailAlways 3 0 le_rfl

/-! ## Python string-order facts used for the sorted category files -/

theorem charListLe_total : ∀ as bs, charListLe as bs = true ∨ charListLe bs as = true := by
  intro as
  induction as with
  | nil => intro bs; exact Or.inl rfl
  | cons x xs ih =>
    intro bs
    cases bs with
    | nil => exact Or.inr rfl
    | cons y ys =>
      by_cases hxy : x = y
      · subst hxy
        rcases ih ys with h | h
        · exact Or.inl (by simp [charListLe, h])
        · exact Or.inr (by simp [charListLe, h])
      · rcases lt_trichotomy x y with h | h | h
        · exact Or.inl (by simp [charListLe, hxy, h])
        · exact absurd h hxy
        · exact Or.inr (by simp [charListLe, Ne.symm hxy, h, not_lt_of_gt h])

theorem charListLe_trans : ∀ as bs cs, charListLe as bs = true → charListLe bs cs = true →
    charListLe as cs = true := by
  intro as
  induction as with
  | nil => intros; rfl
  | cons x xs ih =>
    intro bs cs h1 h2
    cases bs with
    | nil => simp [charListLe] at h1
    | cons y ys =>
      cases cs with
      | nil => simp [charListLe] at h2
      | cons z zs =>
        by_cases hxy : x = y
        · subst hxy
          by_cases hyz : x = z
          · subst hyz
            simp only [charListLe, if_pos rfl] at h1 h2 ⊢
            exact ih ys zs h1 h2
          · simp only [charListLe, if_pos rfl] at h1
            simp only [charListLe, if_neg hyz] at h2 ⊢
            exact h2
        · by_cases hyz : y = z
          · subst hyz
            simp only [charListLe, if_neg hxy] at h1 ⊢
            exact h1
          · simp only [charListLe, if_neg hxy] at h1
            simp only [charListLe, if_neg hyz] at h2
            have hxz : x < z := lt_trans (of_decide_eq_true h1) (of_decide_eq_true h2)
            have hne : x ≠ z := ne_of_lt hxz
            simp [charListLe, hne, hxz]

/-! ## First-success-wins category download (C6) -/

theorem fetchFirstSuccess_append_fail (fetchRes : String → Except String String)
    (pre rest : List String) (hpre : ∀ p ∈ pre, ∃ e, fetchRes p = Except.error e) :
    fetchFirstSuccess fetchRes (pre ++ rest) = fetchFirstSuccess fetchRes rest := by
  induction pre with
  | nil => rfl
  | cons a l ih =>
    obtain ⟨e, he⟩ := hpre a (List.mem_cons_self a l)
    simp only [List.cons_append, fetchFirstSuccess, he]
    exact ih (fun p hp => hpre p (List.mem_cons_of_mem a hp))

theorem attemptedUrls_append_fail (fetchRes : String → Except String String)
    (pre rest : List String) (hpre : ∀ p ∈ pre, ∃ e, fetchRes p = Except.error e) :
    attemptedUrls fetchRes (pre ++ rest) = pre ++ attemptedUrls fetchRes rest := by
  induction pre with
  | nil => rfl
  | cons a l ih =>
    obtain ⟨e, he⟩ := hpre a (List.mem_cons_self a l)
    have hrec := ih (fun p hp => hpre p (List.mem_cons_of_mem a hp))
    simp only [List.cons_append, attemptedUrls, he]
    exact congrArg (fun t => a :: t) hrec

/-- Claim C6: `download_category` adopts exactly the normalized domain set of
the first URL whose fetch succeeds, fetches nothing after that success, and
never unions sets across sources; an empty URL list is a guaranteed
failure. -/
theorem download_category_first_success (fetchRes : String → Except String String)
    (category : String) (pre : List String) (u : String) (post : List String)
    (c : String) (hpre : ∀ p ∈ pre, ∃ e, fetchRes p = Except.error e)
    (hu : fetchRes u = Except.ok c) :
    download_category fetchRes category (pre ++ u :: post) =
      (true, some (unlines (pySorted (process_hosts_file c)))) ∧
    attemptedUrls fetchRes (pre ++ u :: post) = pre ++ [u] ∧
    download_category fetchRes category [] = (false, none) := by
  refine ⟨?_, ?_, rfl⟩
  · unfold download_category
    rw [fetchFirstSuccess_append_fail fetchRes pre (u :: post) hpre]
    simp only [fetchFirstSuccess, hu]
  · rw [attemptedUrls_append_fail fetchRes pre (u :: post) hpre]
    simp only [attemptedUrls, hu]

/-- Witness for C6: the spec's example — first URL fails, second succeeds;
the category succeeds, only the second URL's normalized domains are written,
and no URL after the successful one is fetched. -/
theorem download_category_first_success_witness :
    download_category fetch2 "ads" ["u1", "u2"] =
      (true, some "ads.example.com\ntracker.example\n") ∧
    attemptedUrls fetch2 ["u1", "u2"] = ["u1", "u2"] ∧
    download_category fetch2 "ads" [] = (false, none) := by
  have hpre : ∀ p ∈ ["u1"], ∃ e, fetch2 p = Except.error e := by
    intro p hp
    rw [List.mem_singleton] at hp
    subst hp
    exact ⟨"connection refused", rfl⟩
  obtain ⟨h1, h2, h3⟩ := download_category_first_success fetch2 "ads" ["u1"] "u2" []
    "0.0.0.0 ads.example.com\ntracker.example" hpre rfl
  exact ⟨h1.trans rfl, h2.trans rfl, h3⟩

/-! ## Format of a successfully written category file (C8) -/

theorem setInsert_nodup (s : List String) (x : String) (h : s.Nodup) :
    (setInsert s x).Nodup := by
  unfold setInsert
  split
  · exact h
  · next hc =>
    have hx : x ∉ s := fun hm => hc (by simpa [List.elem_iff] using hm)
    simp [List.nodup_append, h, hx]

theorem hostsFold_nodup (lines : List String) :
    ∀ acc : List String, acc.Nodup →
      (lines.foldl (fun acc l =>
        match hostsLineDomain l with
        | some d => setInsert acc d
        | none => acc) acc).Nodup := by
  induction lines with
  | nil => intro acc h; exact h
  | cons l ls ih =>
    intro acc h
    simp only [List.foldl_cons]
    rcases hq : hostsLineDomain l with _ | d
    · simpa [hq] using ih acc h
    · simpa [hq] using ih (setInsert acc d) (setInsert_nodup acc d h)

theorem process_hosts_file_nodup (content : String) : (process_hosts_file content).Nodup :=
  hostsFold_nodup (pySplitLines content) [] List.nodup_nil

theorem fetchFirstSuccess_some (fetchRes : String → Except String String) :
    ∀ urls u doms, fetchFirstSuccess fetchRes urls = some (u, doms) →
      u ∈ urls ∧ ∃ c, fetchRes u = Except.ok c ∧ doms = process_hosts_file c := by
  intro urls
  induction urls with
  | nil => intro u doms h; exact absurd h (by simp [fetchFirstSuccess])
  | cons a rest ih =>
    intro u doms h
    simp only [fetchFirstSuccess] at h
    rcases hq : fetchRes a with e | c
    · rw [hq] at h
      obtain ⟨hm, hc⟩ := ih u doms h
      exact ⟨List.mem_cons_of_mem a hm, hc⟩
    · rw [hq] at h
      injection h with h'
      injection h' with ha hd
      subst ha
      subst hd
      exact ⟨List.mem_cons_self a rest, c, hq, rfl⟩

/-- Claim C8 (amended): a successful category update writes exactly the
normalized domain set as a sorted, duplicate-free, newline-delimited list,
one domain per line — domains reproduced verbatim as extracted, with no
lowercasing (and a token extracted from a hosts-style line may even begin
with '#'). -/
theorem download_category_file_format (fetchRes : String → Except String String)
    (category : String) (urls : List String) (content : String)
    (h : (download_category fetchRes category urls).2 = some content) :
    ∃ doms : List String, content = unlines doms ∧
      List.Sorted (fun a b => pyStrLe a b = true) doms ∧ doms.Nodup ∧
      ∃ u ∈ urls, ∃ c, fetchRes u = Except.ok c ∧ doms.Perm (process_hosts_file c) := by
  haveI : IsTotal String (fun a b => pyStrLe a b = true) :=
    ⟨fun a b => charListLe_total a.data b.data⟩
  haveI : IsTrans String (fun a b => pyStrLe a b = true) :=
    ⟨fun a b c h1 h2 => charListLe_trans a.data b.data c.data h1 h2⟩
  unfold download_category at h
  rcases hq : fetchFirstSuccess fetchRes urls with _ | r
  · rw [hq] at h
    exact absurd h (by simp)
  · rw [hq] at h
    simp only at h
    rcases r with ⟨u0, doms0⟩
    obtain ⟨hmem, c, hok, hr2⟩ := fetchFirstSuccess_some fetchRes urls u0 doms0 hq
    subst hr2
    refine ⟨pySorted (process_hosts_file c), (Option.some.inj h).symm, ?_, ?_, u0, hmem,
      c, hok, ?_⟩
    · exact List.sorted_insertionSort _ _
    · exact ((List.perm_insertionSort _ _).nodup_iff).mpr (process_hosts_file_nodup c)
    · exact List.perm_insertionSort _ _

/-- Witness for C8 at the concrete two-domain source of `fetch2`. -/
theorem download_category_file_format_witness :
    ∃ doms : List String, "ads.example.com\ntracker.example\n" = unlines doms ∧
      List.Sorted (fun a b => pyStrLe a b = true) doms ∧ doms.Nodup ∧
      ∃ u ∈ ["u2"], ∃ c, fetch2 u = Except.ok c ∧ doms.Perm (process_hosts_file c) :=
  download_category_file_format fetch2 "ads" ["u2"]
    "ads.example.com\ntracker.example\n" rfl

/-- Counterexample to C8 as stated: a source whose hosts-style line carries
the token "#EXAMPLE" makes the update succeed and write "#EXAMPLE\n" — a
line that is not lowercase and reads as a comment line — so the written
file is not always one lowercase domain per line with no comment lines. -/
theorem c8_file_not_lowercase :
    (download_category fetchHashUpper "ads" ["http://s1"]).2 = some "#EXAMPLE\n" ∧
    pyLower "#EXAMPLE" ≠ "#EXAMPLE" ∧ pyStartsWith "#EXAMPLE" "#" = true := by
  refine ⟨rfl, by decide, rfl⟩

/-! ## Full update run: return value and metadata (C4) -/

theorem iteFalseTrue_eq_false_iff (c : Prop) [Decidable c] :
    (if c then false else true) = false ↔ c := by
  split
  · next h => simpa using h
  · next h => simpa using h

/-- Claim C4: `update_all_lists` returns false exactly when no category
succeeded, and its metadata record always carries the run timestamp, the
per-category success map, the total category count, and the success count —
which is 0 on a run where every category failed. -/
theorem update_all_lists_spec (fetchRes : String → Except String String)
    (srcs : List (String × List String)) (now_iso : String) :
    ((update_all_lists fetchRes srcs now_iso).1 = false ↔
      ∀ p ∈ srcs, (download_category fetchRes p.1 p.2).1 = false) ∧
    (update_all_lists fetchRes srcs now_iso).2.last_update = now_iso ∧
    (update_all_lists fetchRes srcs now_iso).2.results =
      srcs.map (fun p => (p.1, (download_category fetchRes p.1 p.2).1)) ∧
    (update_all_lists fetchRes srcs now_iso).2.total_categories = srcs.length ∧
    (update_all_lists fetchRes srcs now_iso).2.successful_updates =
      ((srcs.map (fun p => (p.1, (download_category fetchRes p.1 p.2).1))).filter
        (fun r => r.2)).length ∧
    ((∀ p ∈ srcs, (download_category fetchRes p.1 p.2).1 = false) →
      (update_all_lists fetchRes srcs now_iso).2.successful_updates = 0) := by
  have key : ∀ l : List (String × List String),
      (((l.map (fun p => (p.1, (download_category fetchRes p.1 p.2).1))).filter
        (fun r => r.2)).length = 0 ↔
        ∀ p ∈ l, (download_category fetchRes p.1 p.2).1 = false) := by
    intro l
    rw [List.length_eq_zero, List.filter_eq_nil_iff]
    constructor
    · intro h p hp
      have := h (p.1, (download_category fetchRes p.1 p.2).1)
        (List.mem_map_of_mem _ hp)
      simpa using this
    · rintro h r hr
      obtain ⟨p, hp, rfl⟩ := List.mem_map.mp hr
      simpa using h p hp
  refine ⟨?_, rfl, rfl, rfl, rfl, ?_⟩
  · show (if _ = 0 then false else true) = false ↔ _
    rw [iteFalseTrue_eq_false_iff]
    exact key srcs
  · intro hall
    show ((srcs.map _).filter _).length = 0
    exact (key srcs).mpr hall

/-! ## Blocked counting in the summary (C7) -/

/-- Claim C7: on a non-empty batch the summary counts as blocked every
record whose status differs from 2 (so status 0 counts as blocked), and the
blocked percentage is blocked divided by total times 100. -/
theorem generate_summary_blocked (rows : List ClassifiedRow) (h : rows ≠ []) :
    ∃ s, generate_summary rows = some s ∧
      s.total_queries = rows.length ∧
      s.blocked_queries = (rows.filter (fun r => r.status ≠ 2)).length ∧
      s.blocked_percentage =
        ((rows.filter (fun r => r.status ≠ 2)).length : ℚ) / (rows.length : ℚ) * 100 := by
  have hne : rows.isEmpty = false := by
    cases rows with
    | nil => exact absurd rfl h
    | cons a l => rfl
  have hpos : 0 < rows.length := by
    cases rows with
    | nil => exact absurd rfl h
    | cons a l => simp
  have hsum : generate_summary rows =
      some
        { total_queries := rows.length
          unique_domains := (firstDedup (rows.map (fun r => r.domain))).length
          unique_devices := (firstDedup (rows.map (fun r => r.device))).length
          date_start := intListMin (rows.map (fun r => r.timestamp))
          date_end := intListMax (rows.map (fun r => r.timestamp))
          top_categories := (valueCounts (rows.map (fun r => r.category))).take 10
          top_domains := (valueCounts (rows.map (fun r => r.domain))).take 10
          device_activity := valueCounts (rows.map (fun r => r.device))
          blocked_queries := (rows.filter (fun r => r.status ≠ 2)).length
          blocked_percentage :=
            if 0 < rows.length then
              (((rows.filter (fun r => r.status ≠ 2)).length : ℚ) /
                (rows.length : ℚ)) * 100
            else 0 } := by
    simp [generate_summary, hne]
  exact ⟨_, hsum, rfl, rfl, by simp [if_pos hpos]⟩

/-- Witness for C7: the spec's example — 7 of 10 records have status other
than 2 (one of them status 0), so `blocked_queries = 7` and
`blocked_percentage = 70`. -/
theorem generate_summary_blocked_witness :
    ∃ s, generate_summary c7Rows = some s ∧ s.total_queries = 10 ∧
      s.blocked_queries = 7 ∧ s.blocked_percentage = 70 := by
  obtain ⟨s, hs, ht, hb, hp⟩ := generate_summary_blocked c7Rows (by decide)
  refine ⟨s, hs, ?_, ?_, ?_⟩
  · rw [ht]; rfl
  · rw [hb]; rfl
  · rw [hp]
    have h7 : (c7Rows.filter (fun r => r.status ≠ 2)).length = 7 := rfl
    have h10 : c7Rows.length = 10 := rfl
    rw [h7, h10]
    norm_num

/-! ## Device filter: regex, not substring (C9) -/

/-- Supporting theorem for C9: with device filter "a.b", a record whose
resolved device name is "axb" is retained by `parse_logs` — pandas
`str.contains` treats the filter as a regular expression in which `.`
matches any character — although "a.b" is not a case-insensitive substring
of "axb" as the claim requires. -/
theorem device_filter_regex_not_substring :
    (parse_logs (DbState.tables [QueryRecord.mk "10.0.0.9" "x.example" 5 2]) 0
      [("10.0.0.9", "axb")] [] (some "a.b")).length = 1 ∧
    specCiSubstring "a.b" "axb" = false := by
  exact ⟨rfl, rfl⟩

/-! ## Category file write: in-place truncation, not atomic (C3) -/

/-- Supporting theorem for C3: with a prior file "old.example\n" and a
successful download of domains {b.example, a.example}, stopping the write
plan after two operations (the truncating open plus one line) leaves the
file reading "a.example\n": the prior content is already destroyed and a
reader observes a state that is neither the prior file nor the final
"a.example\nb.example\n". -/
theorem category_write_destroys_prior_file :
    fileAfterOps (some "old.example\n")
        ((categoryWritePlan ["b.example", "a.example"]).take 2) = some "a.example\n" ∧
    (some "a.example\n" : Option String) ≠ some "old.example\n" ∧
    fileAfterOps (some "old.example\n") (categoryWritePlan ["b.example", "a.example"]) =
      some "a.example\nb.example\n" ∧
    (some "a.example\n" : Option String) ≠ some "a.example\nb.example\n" := by
  refine ⟨rfl, by decide, rfl, by decide⟩
